import Mathlib

/-!
Verification of the clickup-sdk repository: a shallow embedding of the
webhook event filters (clickup_sdk/webhook/filters.py) and of the pure value
formatters (clickup/savdo/when_broker_set/components.py), with theorems
settling the specification claims about them.

Python values flowing through the loosely-typed webhook payloads are
modelled by the inductive type Val; fallible Python code (attribute errors
raised on mistyped payloads, ValueError raised by constructors) is modelled
with Except Unit.
-/

/-- A Python value as it appears in webhook payloads and formatter inputs:
None, bool, int, str, list, or a string-keyed dict (modelled as an
association list). Floats do not occur in the verified claims and are not
modelled. -/
inductive Val where
  | vNone : Val
  | vBool : Bool → Val
  | vInt : Int → Val
  | vStr : String → Val
  | vList : List Val → Val
  | vDict : List (String × Val) → Val
deriving Repr

/-- Python truthiness of a value: None, False, 0, "", [], and the empty dict
are falsy, everything else is truthy. -/
def pyTruthy : Val → Bool
  | .vNone => false
  | .vBool b => b
  | .vInt n => !(n == 0)
  | .vStr s => !(s == "")
  | .vList xs => !xs.isEmpty
  | .vDict d => !d.isEmpty

/-- First binding of a key in an association list (our dicts carry no
duplicate keys, mirroring Python dict semantics). -/
def assocFind : List (String × Val) → String → Option Val
  | [], _ => none
  | (k, v) :: rest, key => if k == key then some v else assocFind rest key

/-- Python dict.get(key, default). -/
def dget (d : List (String × Val)) (key : String) (dflt : Val) : Val :=
  match assocFind d key with
  | some v => v
  | none => dflt

/-- Python `a or b`: the first operand when truthy, otherwise the second. -/
def pyOr (a b : Val) : Val :=
  if pyTruthy a then a else b

/-- Python `==` between an arbitrary value and a str: only an equal str
compares equal; ints, None, bools, lists and dicts never equal a str. -/
def pyEqStr (v : Val) (s : String) : Bool :=
  match v with
  | .vStr t => t == s
  | _ => false

/-- Python isinstance(v, dict). -/
def isDict : Val → Bool
  | .vDict _ => true
  | _ => false

/-- The single-quote character used by Python repr for strings. -/
def quoteCh : String := String.singleton (Char.ofNat 39)

mutual

/-- Python repr of a value (string quoting simplified to bare single quotes,
escaping inside strings not modelled; the verified claims never inspect
container representations). -/
def pyReprV : Val → String
  | .vNone => "None"
  | .vBool true => "True"
  | .vBool false => "False"
  | .vInt n => toString n
  | .vStr s => quoteCh ++ s ++ quoteCh
  | .vList xs => "[" ++ pyReprList xs ++ "]"
  | .vDict d => "\x7b" ++ pyReprDict d ++ "\x7d"

/-- Comma-joined reprs of list elements. -/
def pyReprList : List Val → String
  | [] => ""
  | [x] => pyReprV x
  | x :: y :: rest => pyReprV x ++ ", " ++ pyReprList (y :: rest)

/-- Comma-joined key: value reprs of dict entries. -/
def pyReprDict : List (String × Val) → String
  | [] => ""
  | [(k, v)] => quoteCh ++ k ++ quoteCh ++ ": " ++ pyReprV v
  | (k, v) :: p :: rest =>
      quoteCh ++ k ++ quoteCh ++ ": " ++ pyReprV v ++ ", " ++ pyReprDict (p :: rest)

end

/-- Python str() of a value: a string is returned as itself, every other
value through its repr. -/
def pyStr : Val → String
  | .vStr s => s
  | v => pyReprV v

/-- Accumulate a decimal digit string into a Nat; none on any non-digit. -/
def digitsToNatAux : List Char → Nat → Option Nat
  | [], acc => some acc
  | c :: rest, acc =>
      if c.isDigit then digitsToNatAux rest (acc * 10 + (c.toNat - 48)) else none

/-- A non-empty all-digit character sequence as a Nat. -/
def digitsToNat? : List Char → Option Nat
  | [] => none
  | cs => digitsToNatAux cs 0

/-- Strip whitespace from both ends of a character list. -/
def trimWs (cs : List Char) : List Char :=
  ((cs.dropWhile Char.isWhitespace).reverse.dropWhile Char.isWhitespace).reverse

/-- Python int() applied to a string: optional surrounding whitespace, an
optional sign, then one or more decimal digits; none models the ValueError
raised otherwise (numeric-literal underscores and non-ASCII digits are not
modelled). -/
def strToInt? (s : String) : Option Int :=
  match trimWs s.data with
  | [] => none
  | c :: rest =>
      if c == '-' then (digitsToNat? rest).map (fun n => -(n : Int))
      else if c == '+' then (digitsToNat? rest).map (fun n => (n : Int))
      else (digitsToNat? (c :: rest)).map (fun n => (n : Int))

/-- Python int() on a value: ints pass through, bools coerce to 0/1, strings
parse as above; None, lists and dicts raise TypeError (modelled as none). -/
def pyToInt? : Val → Option Int
  | .vInt n => some n
  | .vBool b => some (if b then 1 else 0)
  | .vStr s => strToInt? s
  | _ => none

/-- Insert a space after every three characters of a reversed digit list,
giving thousands grouping once reversed back. -/
def chunk3 : List Char → List Char
  | a :: b :: c :: d :: rest => a :: b :: c :: ' ' :: chunk3 (d :: rest)
  | l => l

/-- Python f"\x7bn:,\x7d".replace(",", " "): decimal digits grouped in threes
from the right with single spaces, with a leading minus for negatives. -/
def spaceGroup (n : Int) : String :=
  let digits := Nat.repr n.natAbs
  let grouped := String.mk (chunk3 digits.data.reverse).reverse
  if n < 0 then "-" ++ grouped else grouped

/-- components.py DEFAULT_VALUE. -/
def DEFAULT_VALUE : String := "N/A"

/-- components.py CURRENCY_SUFFIX. -/
def CURRENCY_SUFFIX : String := " UZS"

/-- components.py NUMBER_SUFFIX. -/
def NUMBER_SUFFIX : String := " ta"

/-- format_currency from components.py: falsy input gives the sentinel;
otherwise int() coercion, thousands grouping with spaces, and the currency
suffix; on coercion failure (caught ValueError/TypeError) the raw value's
str() form. -/
def format_currency (value : Val) : String :=
  if !(pyTruthy value) then DEFAULT_VALUE
  else
    match pyToInt? value with
    | some num => spaceGroup num ++ CURRENCY_SUFFIX
    | none => pyStr value

/-- format_number from components.py: falsy input gives the sentinel;
otherwise int() coercion with the unit suffix, falling back to the raw
value's str() form on coercion failure. -/
def format_number (value : Val) : String :=
  if !(pyTruthy value) then DEFAULT_VALUE
  else
    match pyToInt? value with
    | some num => toString num ++ NUMBER_SUFFIX
    | none => pyStr value

/-- Outcome of the timestamp pipeline int(deadline) / 1000 followed by
datetime.fromtimestamp(...).strftime(DATE_FORMAT). It depends on the
IEEE-double range, the platform time_t range and the local time zone, so it
is abstracted as an oracle over the integer millisecond value: date s is a
successful rendering; caught is a ValueError or OSError raised inside
fromtimestamp/strftime (both listed in the source's except tuple); overflow
is an OverflowError, raised by the int-to-float true division when the
quotient exceeds the largest double (deterministically so for magnitudes at
or above 10 ^ 312, since the largest double is about 1.8e308) or by
fromtimestamp for timestamps past the platform range. The except tuple
(ValueError, TypeError, OSError) omits OverflowError, so the overflow
outcome escapes format_deadline. -/
inductive RenderOutcome where
  | date (s : String) : RenderOutcome
  | caught : RenderOutcome
  | overflow : RenderOutcome

/-- The try-block tail of format_deadline on an integer-coercible value: a
successful rendering is returned, a caught ValueError/OSError falls back to
str(deadline), and an uncaught OverflowError propagates (error). -/
def handleTs (r : RenderOutcome) (deadline : Val) : Except Unit String :=
  match r with
  | .date s => .ok s
  | .caught => .ok (pyStr deadline)
  | .overflow => .error ()

/-- format_deadline from components.py: falsy input gives the sentinel; an
int (or a bool, an int instance in Python, coercing to 0/1) or an
int-parsable string enters the timestamp pipeline, whose
environment-dependent outcome the render oracle supplies; a non-parsable
string raises ValueError at int(), which the except clause catches, falling
back to str(deadline); lists and dicts are stringified directly inside the
try block. Only an OverflowError outcome of the pipeline escapes: the
except clause catches ValueError, TypeError and OSError but not
OverflowError. -/
def format_deadline (render : Int → RenderOutcome) (deadline : Val) :
    Except Unit String :=
  if !(pyTruthy deadline) then .ok DEFAULT_VALUE
  else
    match deadline with
    | .vInt n => handleTs (render n) deadline
    | .vBool b => handleTs (render (if b then 1 else 0)) deadline
    | .vStr t =>
        match strToInt? t with
        | some n => handleTs (render n) deadline
        | none => .ok (pyStr deadline)
    | _ => .ok (pyStr deadline)

/-- get_relationship_name from components.py. It can return a non-string:
dict.get("name", DEFAULT_VALUE) hands back the stored value unchanged, so the
result is modelled as a Val. -/
def get_relationship_name (custom_field_value : Val) : Val :=
  if !(pyTruthy custom_field_value) then .vStr DEFAULT_VALUE
  else
    match custom_field_value with
    | .vList xs =>
        match xs with
        | [] => .vStr DEFAULT_VALUE
        | first_item :: _ =>
            match first_item with
            | .vDict d => dget d "name" (.vStr DEFAULT_VALUE)
            | _ => .vStr (pyStr first_item)
    | .vDict d => dget d "name" (.vStr DEFAULT_VALUE)
    | _ => .vStr (pyStr custom_field_value)

/-- One webhook history change record: a string-keyed mapping of loosely
typed values. -/
abbrev HistItem := List (String × Val)

/-- Modelled from the spec: the webhook event record (events.py of this
repository is not among the provided source files; spec section 3 gives its
shape). event is the event-type tag, task_id the task identifier, and
history_items the optional ordered list of change records. -/
structure WebhookEvent where
  event : String
  task_id : String
  history_items : Option (List HistItem)

/-- Python truthiness of event.history_items: absent (None) or empty is
falsy. -/
def histTruthy (e : WebhookEvent) : Bool :=
  match e.history_items with
  | none => false
  | some l => !l.isEmpty

/-- Python truthiness of an optional string attribute: None and "" are
falsy. -/
def optTruthy : Option String → Bool
  | none => false
  | some s => !(s == "")

/-- Does the first list start with the second-to... does hay begin with
needle (character lists). -/
def chStart : List Char → List Char → Bool
  | [], _ => true
  | _ :: _, [] => false
  | a :: as, b :: bs => a == b && chStart as bs

/-- Is needle a contiguous substring of hay (character lists). -/
def chSub (needle : List Char) : List Char → Bool
  | [] => chStart needle []
  | b :: bs => chStart needle (b :: bs) || chSub needle bs

/-- Python `needle in hay` for strings: contiguous substring containment. -/
def strIn (needle hay : String) : Bool := chSub needle.data hay.data

/-- Python str.lower (ASCII case folding, which covers every status and
field name the code compares). -/
def strLower (s : String) : String := String.mk (s.data.map Char.toLower)

/-- Python str.upper (ASCII case folding). -/
def strUpper (s : String) : String := String.mk (s.data.map Char.toUpper)

/-- Custom field filter state: field_id and field_name as stored by
CustomFieldFilter.__init__. -/
structure CustomFieldFilter where
  field_id : Option String
  field_name : Option String

/-- CustomFieldFilter.__init__: raises ValueError when both field_id and
field_name are falsy. -/
def CustomFieldFilter.mk? (field_id field_name : Option String) :
    Except Unit CustomFieldFilter :=
  if !(optTruthy field_id) && !(optTruthy field_name) then .error ()
  else .ok ⟨field_id, field_name⟩

/-- item.get(key) on a value already known to be a dict (used only under an
isinstance guard). -/
def vget (v : Val) (key : String) : Val :=
  match v with
  | .vDict d => dget d key .vNone
  | _ => .vNone

/-- Field-id strategy 1 of CustomFieldFilter.check: the item's field_id (or,
when that is falsy, its id) is truthy and its str() form equals the filter's
field_id. -/
def strat1 (fid : String) (item : HistItem) : Bool :=
  let fieldIdV := pyOr (dget item "field_id" .vNone) (dget item "id" .vNone)
  pyTruthy fieldIdV && (pyStr fieldIdV == fid)

/-- Field-id strategy 2: the raw field label is truthy and the filter's
field_id occurs inside its str() form. -/
def strat2 (fid : String) (item : HistItem) : Bool :=
  let field := dget item "field" (.vStr "")
  pyTruthy field && strIn fid (pyStr field)

/-- Field-id strategy 3: the nested after or before mapping carries an "id"
or "field_id" attribute equal (raw Python ==, no coercion) to the filter's
field_id. -/
def strat3 (fid : String) (item : HistItem) : Bool :=
  let afterV := dget item "after" (.vDict [])
  let beforeV := dget item "before" (.vDict [])
  (isDict afterV &&
    (pyEqStr (vget afterV "id") fid || pyEqStr (vget afterV "field_id") fid)) ||
  (isDict beforeV &&
    (pyEqStr (vget beforeV "id") fid || pyEqStr (vget beforeV "field_id") fid))

/-- Does a nested after/before mapping carry a truthy string "name" whose
lower-cased form contains the lower-cased filter name. -/
def nameHit (nm : String) (v : Val) : Bool :=
  match v with
  | .vDict d =>
      match dget d "name" .vNone with
      | .vStr s => !(s == "") && strIn (strLower nm) (strLower s)
      | _ => false
  | _ => false

/-- Is a field label a truthy string whose lower-cased form contains the
lower-cased filter name. -/
def labelHit (nm : String) (v : Val) : Bool :=
  match v with
  | .vStr s => !(s == "") && strIn (strLower nm) (strLower s)
  | _ => false

/-- Field-name strategy 4: the field label is a truthy string containing the
filter name case-insensitively. -/
def strat4 (nm : String) (item : HistItem) : Bool :=
  labelHit nm (dget item "field" (.vStr ""))

/-- Field-name strategy 5: the nested after or before mapping's "name"
contains the filter name case-insensitively. -/
def strat5 (nm : String) (item : HistItem) : Bool :=
  nameHit nm (dget item "after" (.vDict [])) ||
  nameHit nm (dget item "before" (.vDict []))

/-- One isinstance-guarded block of the field-name branch: a truthy "name"
value must be a string, otherwise .lower() raises AttributeError (error); a
string matches by case-insensitive containment of the filter name. -/
def nameOne (nm : String) (v : Val) : Except Unit Bool :=
  match v with
  | .vDict d =>
      let nv := dget d "name" .vNone
      if pyTruthy nv then
        match nv with
        | .vStr s => .ok (strIn (strLower nm) (strLower s))
        | _ => .error ()
      else .ok false
  | _ => .ok false

/-- The nested after/before part of the field-name branch, in source order:
after first, then before. -/
def nameNested (nm : String) (afterV beforeV : Val) : Except Unit Bool := do
  let r ← nameOne nm afterV
  if r then .ok true
  else
    let r2 ← nameOne nm beforeV
    if r2 then .ok true else .ok false

/-- The field-name branch of CustomFieldFilter.check for one history item:
the raw field label first (a truthy non-string label makes field.lower()
raise), then the nested after and before mappings. -/
def nameBlock (nm : String) (field afterV beforeV : Val) : Except Unit Bool :=
  if pyTruthy field then
    match field with
    | .vStr s =>
        if strIn (strLower nm) (strLower s) then .ok true
        else nameNested nm afterV beforeV
    | _ => .error ()
  else nameNested nm afterV beforeV

/-- CustomFieldFilter.check body for one history item: the three field-id
strategies in source order with early return, then the field-name branch. -/
def cfItem (cf : CustomFieldFilter) (item : HistItem) : Except Unit Bool :=
  let field := dget item "field" (.vStr "")
  let afterV := dget item "after" (.vDict [])
  let beforeV := dget item "before" (.vDict [])
  if optTruthy cf.field_id && strat1 (cf.field_id.getD "") item then .ok true
  else if optTruthy cf.field_id && strat2 (cf.field_id.getD "") item then .ok true
  else if optTruthy cf.field_id && strat3 (cf.field_id.getD "") item then .ok true
  else if optTruthy cf.field_name then
    nameBlock (cf.field_name.getD "") field afterV beforeV
  else .ok false

/-- A Python `for item in items` loop that returns True on the first item
whose step yields true, False when the loop ends; a raising step
propagates. -/
def anyLoop (step : HistItem → Except Unit Bool) :
    List HistItem → Except Unit Bool
  | [] => .ok false
  | item :: rest => do
    let r ← step item
    if r then .ok true else anyLoop step rest

/-- CustomFieldFilter.check: only "taskUpdated" events (exact,
case-sensitive) with truthy history_items are inspected. -/
def cfCheck (cf : CustomFieldFilter) (e : WebhookEvent) : Except Unit Bool :=
  if !(e.event == "taskUpdated") then .ok false
  else if !(histTruthy e) then .ok false
  else anyLoop (cfItem cf) (e.history_items.getD [])

/-- Task status filter state: optional from_status / to_status as stored by
TaskStatusFilter.__init__ (no validation happens there). -/
structure TaskStatusFilter where
  from_status : Option String
  to_status : Option String

/-- The nested status extraction of TaskStatusFilter.check: the expression
before.get("status", dict()).get("status", "") guarded by isinstance(before,
dict). A non-dict before/after gives "", an absent "status" key gives "",
but a non-dict value stored under the "status" key makes the second .get
raise AttributeError (error); the inner value is returned as stored. -/
def extractStatus (v : Val) : Except Unit Val :=
  match v with
  | .vDict d =>
      match dget d "status" (.vDict []) with
      | .vDict d2 => .ok (dget d2 "status" (.vStr ""))
      | _ => .error ()
  | _ => .ok (.vStr "")

/-- The to_status guard of TaskStatusFilter.check: with a truthy constraint
a non-string new status makes .lower() raise; otherwise the item matches
exactly when the lowered values are equal. Without a constraint the item
matches. -/
def tsToCheck (f : TaskStatusFilter) (newS : Val) : Except Unit Bool :=
  if optTruthy f.to_status then
    match newS with
    | .vStr s => .ok (strLower s == strLower (f.to_status.getD ""))
    | _ => .error ()
  else .ok true

/-- TaskStatusFilter.check body for one history item: extract both statuses,
then apply the from_status guard (continue on mismatch) and the to_status
guard. -/
def tsItem (f : TaskStatusFilter) (item : HistItem) : Except Unit Bool := do
  let oldS ← extractStatus (dget item "before" (.vDict []))
  let newS ← extractStatus (dget item "after" (.vDict []))
  if optTruthy f.from_status then
    match oldS with
    | .vStr s =>
        if !(strLower s == strLower (f.from_status.getD "")) then .ok false
        else tsToCheck f newS
    | _ => .error ()
  else tsToCheck f newS

/-- TaskStatusFilter.check: only "taskStatusUpdated" events with truthy
history_items are inspected. -/
def tsCheck (f : TaskStatusFilter) (e : WebhookEvent) : Except Unit Bool :=
  if !(e.event == "taskStatusUpdated") then .ok false
  else if !(histTruthy e) then .ok false
  else anyLoop (tsItem f) (e.history_items.getD [])

/-- Task assignee filter state. -/
structure TaskAssigneeFilter where
  user_id : Option String

/-- One assignee entry of after.assignees: a dict matches through its "id"
attribute, a bare value by direct equality with the user id. -/
def taAssigneeHit (uid : String) (a : Val) : Bool :=
  (match a with
   | .vDict d => pyEqStr (dget d "id" .vNone) uid
   | _ => false) || pyEqStr a uid

/-- TaskAssigneeFilter.check body for one history item: scan the after
mapping's "assignees" list; never raises. -/
def taItem (uid : String) (item : HistItem) : Except Unit Bool :=
  match dget item "after" (.vDict []) with
  | .vDict d =>
      match dget d "assignees" (.vList []) with
      | .vList assignees => .ok (assignees.any (taAssigneeHit uid))
      | _ => .ok false
  | _ => .ok false

/-- TaskAssigneeFilter.check: only "taskAssigneeUpdated" events; without a
truthy user_id any such event matches before history is consulted. -/
def taCheck (f : TaskAssigneeFilter) (e : WebhookEvent) : Except Unit Bool :=
  if !(e.event == "taskAssigneeUpdated") then .ok false
  else if !(optTruthy f.user_id) then .ok true
  else if !(histTruthy e) then .ok false
  else anyLoop (taItem (f.user_id.getD "")) (e.history_items.getD [])

/-- Combined filter state: the child filters (their check functions) and the
upper-cased logic string stored by CombinedFilter.__init__. -/
structure CombinedFilter where
  filters : List (WebhookEvent → Except Unit Bool)
  logic : String

/-- CombinedFilter.__init__: stores logic.upper() and raises ValueError when
the result is neither "AND" nor "OR". -/
def CombinedFilter.mk? (filters : List (WebhookEvent → Except Unit Bool))
    (logic : String) : Except Unit CombinedFilter :=
  let up := strUpper logic
  if !(up == "AND") && !(up == "OR") then .error () else .ok ⟨filters, up⟩

/-- The result-collecting loop of CombinedFilter.check: every child filter
is evaluated in order (no boolean short-circuit); a raising child
propagates. -/
def evalAll (e : WebhookEvent) :
    List (WebhookEvent → Except Unit Bool) → Except Unit (List Bool)
  | [] => .ok []
  | f :: rest => do
    let r ← f e
    let rs ← evalAll e rest
    .ok (r :: rs)

/-- CombinedFilter.check: an empty child list matches immediately; otherwise
all children are evaluated and the results reduced with all() or any(). -/
def combCheck (cf : CombinedFilter) (e : WebhookEvent) : Except Unit Bool :=
  if cf.filters.isEmpty then .ok true
  else do
    let results ← evalAll e cf.filters
    if cf.logic == "AND" then .ok (results.all id) else .ok (results.any id)

/-- Did an Except-valued check return True. -/
def isOkTrue (r : Except Unit Bool) : Bool :=
  match r with
  | .ok true => true
  | _ => false

/-- Did an Except-valued check return normally (no raised exception). -/
def noRaise (r : Except Unit Bool) : Bool :=
  match r with
  | .ok _ => true
  | .error _ => false

/-- The claimed per-item match of the field filter: the disjunction of the
five strategies, each gated by its configured criterion. -/
def fieldItemSpec (cf : CustomFieldFilter) (item : HistItem) : Bool :=
  (optTruthy cf.field_id &&
    (strat1 (cf.field_id.getD "") item || strat2 (cf.field_id.getD "") item ||
     strat3 (cf.field_id.getD "") item)) ||
  (optTruthy cf.field_name &&
    (strat4 (cf.field_name.getD "") item || strat5 (cf.field_name.getD "") item))

/-- The claimed overall field-filter match: event type exactly "taskUpdated",
non-empty history, and some history item satisfying a strategy. -/
def fieldFilterSpec (cf : CustomFieldFilter) (e : WebhookEvent) : Bool :=
  (e.event == "taskUpdated") &&
  (match e.history_items with
   | some l => !l.isEmpty && l.any (fieldItemSpec cf)
   | none => false)

/-- The claimed status extraction on a before/after value: navigate
value.status.status, any absent key or wrong-shaped intermediate value
giving the empty string. -/
def specStatusStrV (v : Val) : String :=
  match v with
  | .vDict d =>
      match dget d "status" (.vDict []) with
      | .vDict d2 =>
          match dget d2 "status" (.vStr "") with
          | .vStr s => s
          | _ => ""
      | _ => ""
  | _ => ""

/-- The claimed extraction of before.status.status / after.status.status of
a history item. -/
def specStatusStr (item : HistItem) (key : String) : String :=
  specStatusStrV (dget item key (.vDict []))

/-- Case-insensitive string equality (Python a.lower() == b.lower()). -/
def ciEq (a b : String) : Bool := strLower a == strLower b

/-- A before/after value on which the nested status extraction cannot raise
and yields a string: either not a dict, or its "status" entry (defaulting to
an empty dict) is a dict whose inner "status" entry (defaulting to "") is a
string. -/
def statusShapedV (v : Val) : Bool :=
  match v with
  | .vDict d =>
      match dget d "status" (.vDict []) with
      | .vDict d2 =>
          match dget d2 "status" (.vStr "") with
          | .vStr _ => true
          | _ => false
      | _ => false
  | _ => true

/-- A history item whose before and after values are both status-shaped. -/
def itemStatusShaped (item : HistItem) : Bool :=
  statusShapedV (dget item "before" (.vDict [])) &&
  statusShapedV (dget item "after" (.vDict []))

theorem labelHit_of_falsy (nm : String) (v : Val) (h : pyTruthy v = false) :
    labelHit nm v = false := by
  cases v <;> simp_all [pyTruthy, labelHit]

theorem nameOne_eq (nm : String) (v : Val) (b : Bool)
    (h : nameOne nm v = .ok b) : b = nameHit nm v := by
  cases v with
  | vDict d =>
      simp only [nameOne] at h
      simp only [nameHit]
      generalize hnv : dget d "name" .vNone = nv at h ⊢
      cases nv with
      | vStr s =>
          by_cases hs : s = ""
          · subst hs; simp [pyTruthy] at h; simp [h]
          · simp [pyTruthy, hs] at h; rw [← h]; simp [hs]
      | vNone => simp [pyTruthy] at h; simp [h]
      | vBool bb => cases bb <;> simp [pyTruthy] at h <;> simp [h]
      | vInt n =>
          by_cases hn : n = 0
          · subst hn; simp [pyTruthy] at h; simp [h]
          · simp [pyTruthy, hn] at h
      | vList xs =>
          by_cases hx : xs.isEmpty <;> simp [pyTruthy, hx] at h <;> simp [h]
      | vDict d2 =>
          by_cases hx : d2.isEmpty <;> simp [pyTruthy, hx] at h <;> simp [h]
  | vNone => simp [nameOne] at h; simp [nameHit, h]
  | vBool bb => simp [nameOne] at h; simp [nameHit, h]
  | vInt n => simp [nameOne] at h; simp [nameHit, h]
  | vStr s => simp [nameOne] at h; simp [nameHit, h]
  | vList xs => simp [nameOne] at h; simp [nameHit, h]

theorem nameNested_eq (nm : String) (a c : Val) (b : Bool)
    (h : nameNested nm a c = .ok b) : b = (nameHit nm a || nameHit nm c) := by
  simp only [nameNested] at h
  cases ha : nameOne nm a with
  | error u => rw [ha] at h; simp [bind, Except.bind] at h
  | ok r =>
      rw [ha] at h
      simp only [bind, Except.bind] at h
      have hra := nameOne_eq nm a r ha
      cases r with
      | true => simp at h; simp [← hra, ← h]
      | false =>
          simp only [Bool.false_eq_true, if_false] at h
          cases hc : nameOne nm c with
          | error u => rw [hc] at h; simp [bind, Except.bind] at h
          | ok r2 =>
              rw [hc] at h
              simp only [bind, Except.bind] at h
              have hrc := nameOne_eq nm c r2 hc
              cases r2 with
              | true => simp at h; simp [← hra, ← hrc, ← h]
              | false => simp at h; simp [← hra, ← hrc, ← h]
theorem nameBlock_eq (nm : String) (field a c : Val) (b : Bool)
    (h : nameBlock nm field a c = .ok b) :
    b = (labelHit nm field || nameHit nm a || nameHit nm c) := by
  simp only [nameBlock] at h
  cases hf : pyTruthy field with
  | false =>
      simp [hf] at h
      rw [labelHit_of_falsy nm field hf]
      simpa using nameNested_eq nm a c b h
  | true =>
      simp [hf] at h
      cases field with
      | vStr s =>
          have hs : ¬(s = "") := by
            intro he; rw [he] at hf; simp [pyTruthy] at hf
          by_cases hin : strIn (strLower nm) (strLower s) = true
          · simp [hin] at h
            subst h
            simp [labelHit, hs, hin]
          · simp [hin] at h
            have := nameNested_eq nm a c b h
            simp [labelHit, hs, hin, this]
      | vNone => simp [pyTruthy] at hf
      | vBool bb => simp at h
      | vInt n => simp at h
      | vList xs => simp at h
      | vDict d => simp at h

theorem cfItem_eq (cf : CustomFieldFilter) (item : HistItem) (b : Bool)
    (h : cfItem cf item = .ok b) : b = fieldItemSpec cf item := by
  simp only [cfItem] at h
  by_cases hfid : optTruthy cf.field_id = true
  · by_cases h1 : strat1 (cf.field_id.getD "") item = true
    · simp [hfid, h1] at h
      subst h
      simp [fieldItemSpec, hfid, h1]
    · by_cases h2 : strat2 (cf.field_id.getD "") item = true
      · simp [hfid, h1, h2] at h
        subst h
        simp [fieldItemSpec, hfid, h2]
      · by_cases h3 : strat3 (cf.field_id.getD "") item = true
        · simp [hfid, h1, h2, h3] at h
          subst h
          simp [fieldItemSpec, hfid, h3]
        · by_cases hnm : optTruthy cf.field_name = true
          · simp [hfid, h1, h2, h3, hnm] at h
            have hb := nameBlock_eq _ _ _ _ _ h
            simp [fieldItemSpec, hfid, h1, h2, h3, hnm, strat4, strat5, hb,
              Bool.or_assoc]
          · simp [hfid, h1, h2, h3, hnm] at h
            subst h
            simp at h1 h2 h3 hnm
            simp [fieldItemSpec, hfid, hnm, h1, h2, h3]
  · by_cases hnm : optTruthy cf.field_name = true
    · simp [hfid, hnm] at h
      have hb := nameBlock_eq _ _ _ _ _ h
      simp at hfid
      simp [fieldItemSpec, hfid, hnm, strat4, strat5, hb, Bool.or_assoc]
    · simp [hfid, hnm] at h
      subst h
      simp at hfid hnm
      simp [fieldItemSpec, hfid, hnm]

theorem anyLoop_eq (step : HistItem → Except Unit Bool) (g : HistItem → Bool)
    (hstep : ∀ it b, step it = .ok b → b = g it) :
    ∀ (l : List HistItem) (b : Bool), anyLoop step l = .ok b → b = l.any g := by
  intro l
  induction l with
  | nil => intro b h; simp [anyLoop] at h; simp [← h]
  | cons it rest ih =>
      intro b h
      simp only [anyLoop] at h
      cases hs : step it with
      | error u => rw [hs] at h; simp [bind, Except.bind] at h
      | ok r =>
          rw [hs] at h
          simp only [bind, Except.bind] at h
          have hr := hstep it r hs
          cases r with
          | true => simp at h; simp [List.any_cons, ← hr, ← h]
          | false =>
              simp only [Bool.false_eq_true, if_false] at h
              have := ih b h
              simp [List.any_cons, ← hr, this]

theorem anyLoop_total (step : HistItem → Except Unit Bool) :
    ∀ l : List HistItem, (∀ it ∈ l, ∃ b, step it = .ok b) →
      ∃ b, anyLoop step l = .ok b := by
  intro l
  induction l with
  | nil => intro _; exact ⟨false, rfl⟩
  | cons it rest ih =>
      intro hl
      obtain ⟨r, hr⟩ := hl it (by simp)
      obtain ⟨b2, hb2⟩ := ih (fun x hx => hl x (by simp [hx]))
      cases r with
      | true => exact ⟨true, by simp [anyLoop, hr, bind, Except.bind]⟩
      | false => exact ⟨b2, by simp [anyLoop, hr, hb2, bind, Except.bind]⟩

theorem extractStatus_shaped (v : Val) (h : statusShapedV v = true) :
    extractStatus v = .ok (.vStr (specStatusStrV v)) := by
  cases v with
  | vNone => rfl
  | vBool b => rfl
  | vInt n => rfl
  | vStr s => rfl
  | vList xs => rfl
  | vDict d =>
      cases hs : dget d "status" (.vDict []) with
      | vDict d2 =>
          cases hi : dget d2 "status" (.vStr "") with
          | vStr s => simp [extractStatus, specStatusStrV, hs, hi]
          | vNone => simp [statusShapedV, hs, hi] at h
          | vBool bb => simp [statusShapedV, hs, hi] at h
          | vInt n => simp [statusShapedV, hs, hi] at h
          | vList xs => simp [statusShapedV, hs, hi] at h
          | vDict dd => simp [statusShapedV, hs, hi] at h
      | vNone => simp [statusShapedV, hs] at h
      | vBool bb => simp [statusShapedV, hs] at h
      | vInt n => simp [statusShapedV, hs] at h
      | vStr s => simp [statusShapedV, hs] at h
      | vList xs => simp [statusShapedV, hs] at h

theorem extractStatus_str (v : Val) (s : String)
    (h : extractStatus v = .ok (.vStr s)) : specStatusStrV v = s := by
  cases v with
  | vNone => simp [extractStatus] at h; simp [specStatusStrV, ← h]
  | vBool b => simp [extractStatus] at h; simp [specStatusStrV, ← h]
  | vInt n => simp [extractStatus] at h; simp [specStatusStrV, ← h]
  | vStr t => simp [extractStatus] at h; simp [specStatusStrV, ← h]
  | vList xs => simp [extractStatus] at h; simp [specStatusStrV, ← h]
  | vDict d =>
      cases hs : dget d "status" (.vDict []) with
      | vDict d2 =>
          simp [extractStatus, hs] at h
          simp [specStatusStrV, hs, h]
      | vNone => simp [extractStatus, hs] at h
      | vBool bb => simp [extractStatus, hs] at h
      | vInt n => simp [extractStatus, hs] at h
      | vStr t => simp [extractStatus, hs] at h
      | vList xs => simp [extractStatus, hs] at h

theorem tsItem_to (t : String) (it : HistItem) (b : Bool)
    (h : tsItem ⟨none, some t⟩ it = .ok b) (ht : ¬(t = "")) :
    b = ciEq (specStatusStr it "after") t := by
  simp only [tsItem] at h
  cases hb : extractStatus (dget it "before" (.vDict [])) with
  | error u => rw [hb] at h; simp [bind, Except.bind] at h
  | ok oldS =>
      rw [hb] at h
      simp only [bind, Except.bind] at h
      cases hn : extractStatus (dget it "after" (.vDict [])) with
      | error u => rw [hn] at h; simp [bind, Except.bind] at h
      | ok newS =>
          rw [hn] at h
          simp only [bind, Except.bind, optTruthy] at h
          simp only [Bool.not_eq_true, if_false, Bool.false_eq_true] at h
          simp only [tsToCheck, optTruthy] at h
          cases newS with
          | vStr s =>
              simp [ht] at h
              have hs := extractStatus_str _ _ hn
              simp [specStatusStr, hs, ciEq, ← h]
          | vNone => simp [ht] at h
          | vBool bb => simp [ht] at h
          | vInt n => simp [ht] at h
          | vList xs => simp [ht] at h
          | vDict dd => simp [ht] at h

theorem tsItem_from (fsv : String) (it : HistItem) (b : Bool)
    (h : tsItem ⟨some fsv, none⟩ it = .ok b) (hf : ¬(fsv = "")) :
    b = ciEq (specStatusStr it "before") fsv := by
  simp only [tsItem] at h
  cases hb : extractStatus (dget it "before" (.vDict [])) with
  | error u => rw [hb] at h; simp [bind, Except.bind] at h
  | ok oldS =>
      rw [hb] at h
      simp only [bind, Except.bind] at h
      cases hn : extractStatus (dget it "after" (.vDict [])) with
      | error u => rw [hn] at h; simp [bind, Except.bind] at h
      | ok newS =>
          rw [hn] at h
          simp only [bind, Except.bind, optTruthy] at h
          cases oldS with
          | vStr s =>
              simp [hf] at h
              have hs := extractStatus_str _ _ hb
              by_cases hcmp : strLower s = strLower fsv
              · simp [hcmp, tsToCheck, optTruthy] at h
                subst h
                simp [specStatusStr, hs, ciEq, hcmp]
              · simp [hcmp] at h
                subst h
                simp [specStatusStr, hs, ciEq, hcmp]
          | vNone => simp [hf] at h
          | vBool bb => simp [hf] at h
          | vInt n => simp [hf] at h
          | vList xs => simp [hf] at h
          | vDict dd => simp [hf] at h

theorem tsItem_nofilter (it : HistItem) (b : Bool)
    (h : tsItem ⟨none, none⟩ it = .ok b) : b = true := by
  simp only [tsItem] at h
  cases hb : extractStatus (dget it "before" (.vDict [])) with
  | error u => rw [hb] at h; simp [bind, Except.bind] at h
  | ok oldS =>
      rw [hb] at h
      simp only [bind, Except.bind] at h
      cases hn : extractStatus (dget it "after" (.vDict [])) with
      | error u => rw [hn] at h; simp [bind, Except.bind] at h
      | ok newS =>
          rw [hn] at h
          simp only [bind, Except.bind, optTruthy] at h
          simp [tsToCheck, optTruthy] at h
          simp [← h]

theorem tsItem_total (f : TaskStatusFilter) (it : HistItem)
    (h : itemStatusShaped it = true) : ∃ b, tsItem f it = .ok b := by
  simp only [itemStatusShaped, Bool.and_eq_true] at h
  have hb := extractStatus_shaped _ h.1
  have hn := extractStatus_shaped _ h.2
  simp only [tsItem, hb, hn, bind, Except.bind]
  by_cases hf : optTruthy f.from_status = true
  · simp only [hf, if_true]
    by_cases hcmp : strLower (specStatusStrV (dget it "before" (.vDict []))) =
        strLower (f.from_status.getD "")
    · simp only [hcmp]
      simp only [tsToCheck]
      by_cases ht : optTruthy f.to_status = true
      · simp [ht]
      · simp [ht]
    · simp [hcmp]
  · simp only [hf]
    simp only [Bool.not_eq_true] at hf
    simp only [hf, Bool.false_eq_true, if_false, tsToCheck]
    by_cases ht : optTruthy f.to_status = true
    · simp [ht]
    · simp [ht]

theorem evalAll_all_any (e : WebhookEvent) :
    ∀ (fs : List (WebhookEvent → Except Unit Bool)) (rs : List Bool),
      evalAll e fs = .ok rs →
      (rs.all id = fs.all (fun f => isOkTrue (f e)) ∧
       rs.any id = fs.any (fun f => isOkTrue (f e))) := by
  intro fs
  induction fs with
  | nil => intro rs h; simp [evalAll] at h; subst h; simp
  | cons f rest ih =>
      intro rs h
      simp only [evalAll] at h
      cases hf : f e with
      | error u => rw [hf] at h; simp [bind, Except.bind] at h
      | ok r =>
          rw [hf] at h
          simp only [bind, Except.bind] at h
          cases hr : evalAll e rest with
          | error u => rw [hr] at h; simp at h
          | ok rs2 =>
              rw [hr] at h
              simp at h
              obtain ⟨h1, h2⟩ := ih rs2 hr
              cases r with
              | true => simp [← h, List.all_cons, List.any_cons, h1, h2, isOkTrue, hf]
              | false => simp [← h, List.all_cons, List.any_cons, h1, h2, isOkTrue, hf]

/-- C1 counterexample: on a "taskStatusUpdated" event whose history item
stores a non-mapping value (the string "open") directly under the "before"
mapping's "status" key, TaskStatusFilter.check raises an AttributeError
(the chained .get is called on a str) instead of extracting the empty
string and returning false. -/
theorem taskStatusFilter_nonmapping_status_raises :
    tsCheck ⟨none, none⟩
      ⟨"taskStatusUpdated", "t",
        some [[("before", .vDict [("status", .vStr "open")])]]⟩ = .error () := rfl

/-- C1 (amended): for every "taskStatusUpdated" event whose history items
only store mappings (with string inner statuses) under their before/after
"status" keys, TaskStatusFilter.check never raises; the extraction yields
the empty string when before/after is not a mapping, and navigates the
nested mappings with empty-string defaults, while a non-mapping value
stored under the "status" key raises instead of yielding the empty
string. -/
theorem taskStatusFilter_extraction_amended (f : TaskStatusFilter)
    (e : WebhookEvent) (v : Val) (d dd d2 : List (String × Val))
    (hshape : ∀ it ∈ e.history_items.getD [], itemStatusShaped it = true)
    (hv : isDict v = false)
    (hd2 : dget d "status" (.vDict []) = .vDict d2)
    (hdd : isDict (dget dd "status" (.vDict [])) = false) :
    noRaise (tsCheck f e) = true ∧
    extractStatus v = .ok (.vStr "") ∧
    extractStatus (.vDict d) = .ok (dget d2 "status" (.vStr "")) ∧
    extractStatus (.vDict dd) = .error () := by
  refine ⟨?_, ?_, ?_, ?_⟩
  · have hok : ∃ b, tsCheck f e = .ok b := by
      simp only [tsCheck]
      cases hev : (e.event == "taskStatusUpdated") with
      | false => simp [hev]
      | true =>
          cases hht : histTruthy e with
          | false => simp [hev, hht]
          | true =>
              obtain ⟨b, hb⟩ := anyLoop_total (tsItem f) (e.history_items.getD [])
                (fun it hit => tsItem_total f it (hshape it hit))
              exact ⟨b, by simp [hev, hht, hb]⟩
    obtain ⟨b, hb⟩ := hok
    simp [noRaise, hb]
  · cases v <;> simp_all [isDict, extractStatus]
  · simp [extractStatus, hd2]
  · simp only [extractStatus]
    cases hs : dget dd "status" (.vDict []) with
    | vDict dd2 => rw [hs] at hdd; simp [isDict] at hdd
    | vNone => simp
    | vBool bb => simp
    | vInt n => simp
    | vStr s => simp
    | vList xs => simp

theorem taskStatusFilter_extraction_amended_witness :
    noRaise (tsCheck ⟨none, none⟩
      ⟨"taskStatusUpdated", "t",
        some [[("before", .vDict [("status", .vDict [("status", .vStr "open")])])]]⟩) = true ∧
    extractStatus (.vStr "x") = .ok (.vStr "") ∧
    extractStatus (.vDict [("status", .vDict [])]) =
      .ok (dget [] "status" (.vStr "")) ∧
    extractStatus (.vDict [("status", .vStr "open")]) = .error () :=
  taskStatusFilter_extraction_amended ⟨none, none⟩
    ⟨"taskStatusUpdated", "t",
      some [[("before", .vDict [("status", .vDict [("status", .vStr "open")])])]]⟩
    (.vStr "x") [("status", .vDict [])] [("status", .vStr "open")] []
    (by decide) rfl rfl rfl

/-- C2: whenever CustomFieldFilter.check returns a boolean (rather than
raising), it returns true exactly when the event's type is the exact string
"taskUpdated", the history list is present and non-empty, and some history
item satisfies one of the five match strategies of the claim (the three
field-id strategies, then the two field-name strategies). -/
theorem customFieldFilter_check_characterization (cf : CustomFieldFilter)
    (e : WebhookEvent) (b : Bool) (h : cfCheck cf e = .ok b) :
    b = fieldFilterSpec cf e := by
  simp only [cfCheck] at h
  cases hev : (e.event == "taskUpdated") with
  | false =>
      rw [hev] at h
      simp at h
      subst h
      simp [fieldFilterSpec, hev]
  | true =>
      rw [hev] at h
      cases hh : e.history_items with
      | none =>
          simp [histTruthy, hh] at h
          subst h
          simp [fieldFilterSpec, hev, hh]
      | some l =>
          cases hl : l.isEmpty with
          | true =>
              simp [histTruthy, hh, hl] at h
              subst h
              simp [fieldFilterSpec, hev, hh, hl]
          | false =>
              simp [histTruthy, hh, hl] at h
              have hb := anyLoop_eq (cfItem cf) (fieldItemSpec cf)
                (cfItem_eq cf) l b h
              simp [fieldFilterSpec, hev, hh, hl, hb]

theorem customFieldFilter_check_characterization_witness :
    true = fieldFilterSpec ⟨some "X", none⟩
      ⟨"taskUpdated", "t",
        some [[("field_id", .vStr "X"), ("field", .vStr "desc")]]⟩ :=
  customFieldFilter_check_characterization ⟨some "X", none⟩
    ⟨"taskUpdated", "t",
      some [[("field_id", .vStr "X"), ("field", .vStr "desc")]]⟩ true rfl

/-- C3: on a "taskStatusUpdated" event with non-empty history, a to_status
constraint matches exactly when some history item's after.status.status
equals it case-insensitively (whenever check returns a boolean), the same
rule holds for from_status against before.status.status, and with neither
constraint set check returns true whenever it returns at all. -/
theorem taskStatusFilter_matching (e : WebhookEvent) (l : List HistItem)
    (hev : e.event = "taskStatusUpdated") (hh : e.history_items = some l)
    (hne : l ≠ []) :
    (∀ t b, ¬(t = "") → tsCheck ⟨none, some t⟩ e = .ok b →
        b = l.any (fun it => ciEq (specStatusStr it "after") t)) ∧
    (∀ s b, ¬(s = "") → tsCheck ⟨some s, none⟩ e = .ok b →
        b = l.any (fun it => ciEq (specStatusStr it "before") s)) ∧
    (∀ b, tsCheck ⟨none, none⟩ e = .ok b → b = true) := by
  have hht : histTruthy e = true := by
    simpa [histTruthy, hh] using hne
  refine ⟨?_, ?_, ?_⟩
  · intro t b ht h
    simp [tsCheck, hev, hht, hh] at h
    exact anyLoop_eq (tsItem ⟨none, some t⟩)
      (fun it => ciEq (specStatusStr it "after") t)
      (fun it bb hbb => tsItem_to t it bb hbb ht) l b h
  · intro s b hs h
    simp [tsCheck, hev, hht, hh] at h
    exact anyLoop_eq (tsItem ⟨some s, none⟩)
      (fun it => ciEq (specStatusStr it "before") s)
      (fun it bb hbb => tsItem_from s it bb hbb hs) l b h
  · intro b h
    simp [tsCheck, hev, hht, hh] at h
    have hb := anyLoop_eq (tsItem ⟨none, none⟩) (fun it => true)
      (fun it bb hbb => tsItem_nofilter it bb hbb) l b h
    cases l with
    | nil => exact absurd rfl hne
    | cons x xs => simpa using hb

theorem taskStatusFilter_matching_witness :
    true = ([[("after", Val.vDict [("status",
        Val.vDict [("status", Val.vStr "Complete")])])]] : List HistItem).any
      (fun it => ciEq (specStatusStr it "after") "complete") :=
  ((taskStatusFilter_matching
      ⟨"taskStatusUpdated", "t",
        some [[("after", .vDict [("status",
          .vDict [("status", .vStr "Complete")])])]]⟩
      [[("after", .vDict [("status", .vDict [("status", .vStr "Complete")])])]]
      rfl rfl (by simp)).1) "complete" true (by simp) rfl

/-- C4: whenever CombinedFilter.check returns a boolean, mode "AND" returns
true exactly when every child check returned true on the event, mode "OR"
exactly when some child did, and an empty child list returns true under any
mode. -/
theorem combinedFilter_semantics (fs : List (WebhookEvent → Except Unit Bool))
    (e : WebhookEvent) :
    (∀ b, combCheck ⟨fs, "AND"⟩ e = .ok b →
        b = fs.all (fun f => isOkTrue (f e))) ∧
    (∀ b, fs ≠ [] → combCheck ⟨fs, "OR"⟩ e = .ok b →
        b = fs.any (fun f => isOkTrue (f e))) ∧
    (∀ logic, combCheck ⟨[], logic⟩ e = .ok true) := by
  refine ⟨?_, ?_, fun logic => rfl⟩
  · intro b h
    cases fs with
    | nil => simp [combCheck] at h; simp [← h]
    | cons f rest =>
        simp only [combCheck, List.isEmpty] at h
        cases hr : evalAll e (f :: rest) with
        | error u => rw [hr] at h; simp [bind, Except.bind] at h
        | ok rs =>
            rw [hr] at h
            simp [bind, Except.bind] at h
            obtain ⟨h1, h2⟩ := evalAll_all_any e (f :: rest) rs hr
            simp [← h, h1]
  · intro b hfne h
    cases fs with
    | nil => exact absurd rfl hfne
    | cons f rest =>
        simp only [combCheck, List.isEmpty] at h
        cases hr : evalAll e (f :: rest) with
        | error u => rw [hr] at h; simp [bind, Except.bind] at h
        | ok rs =>
            rw [hr] at h
            simp [bind, Except.bind] at h
            obtain ⟨h1, h2⟩ := evalAll_all_any e (f :: rest) rs hr
            simp [← h, h2]

theorem combinedFilter_semantics_witness :
    true = ([fun _ => Except.ok true] :
        List (WebhookEvent → Except Unit Bool)).all
      (fun f => isOkTrue (f ⟨"taskUpdated", "t", none⟩)) :=
  (combinedFilter_semantics [fun _ => Except.ok true]
    ⟨"taskUpdated", "t", none⟩).1 true rfl

/-- C5: an event whose history_items is absent or empty makes
CustomFieldFilter.check, TaskStatusFilter.check, and (for a filter built
with a truthy user id) TaskAssigneeFilter.check all return false without
raising. -/
theorem history_absent_or_empty_no_match (e : WebhookEvent)
    (h : e.history_items = none ∨ e.history_items = some []) :
    (∀ cf : CustomFieldFilter, cfCheck cf e = .ok false) ∧
    (∀ f : TaskStatusFilter, tsCheck f e = .ok false) ∧
    (∀ u : String, ¬(u = "") → taCheck ⟨some u⟩ e = .ok false) := by
  have hht : histTruthy e = false := by
    cases h with
    | inl h1 => simp [histTruthy, h1]
    | inr h1 => simp [histTruthy, h1]
  refine ⟨?_, ?_, ?_⟩
  · intro cf
    cases hev : (e.event == "taskUpdated") <;> simp [cfCheck, hev, hht]
  · intro f
    cases hev : (e.event == "taskStatusUpdated") <;> simp [tsCheck, hev, hht]
  · intro u hu
    cases hev : (e.event == "taskAssigneeUpdated") <;>
      simp [taCheck, hev, hht, optTruthy, hu]

theorem history_absent_or_empty_no_match_witness :
    cfCheck ⟨some "X", none⟩ ⟨"taskUpdated", "t", none⟩ = .ok false ∧
    tsCheck ⟨none, some "complete"⟩ ⟨"taskStatusUpdated", "t", none⟩ =
      .ok false ∧
    taCheck ⟨some "7"⟩ ⟨"taskAssigneeUpdated", "t", some []⟩ = .ok false :=
  ⟨(history_absent_or_empty_no_match ⟨"taskUpdated", "t", none⟩
      (Or.inl rfl)).1 ⟨some "X", none⟩,
   (history_absent_or_empty_no_match ⟨"taskStatusUpdated", "t", none⟩
      (Or.inl rfl)).2.1 ⟨none, some "complete"⟩,
   (history_absent_or_empty_no_match ⟨"taskAssigneeUpdated", "t", some []⟩
      (Or.inr rfl)).2.2 "7" (by simp)⟩

/-- C6: CustomFieldFilter construction raises exactly when both field_id and
field_name are falsy, and CombinedFilter construction raises exactly when
the upper-cased logic string is neither "AND" nor "OR"; both are decided at
construction time, before any check runs. -/
theorem constructor_validation_immediate (fid fname : Option String)
    (fs : List (WebhookEvent → Except Unit Bool)) (logic : String) :
    (CustomFieldFilter.mk? fid fname = .error () ↔
      (optTruthy fid = false ∧ optTruthy fname = false)) ∧
    (CombinedFilter.mk? fs logic = .error () ↔
      (¬(strUpper logic = "AND") ∧ ¬(strUpper logic = "OR"))) := by
  constructor
  · constructor
    · intro h
      by_cases h1 : optTruthy fid = true
      · simp [CustomFieldFilter.mk?, h1] at h
      · by_cases h2 : optTruthy fname = true
        · simp [CustomFieldFilter.mk?, h1, h2] at h
        · simp at h1 h2; exact ⟨h1, h2⟩
    · rintro ⟨h1, h2⟩
      simp [CustomFieldFilter.mk?, h1, h2]
  · constructor
    · intro h
      by_cases h1 : strUpper logic = "AND"
      · simp [CombinedFilter.mk?, h1] at h
      · by_cases h2 : strUpper logic = "OR"
        · simp [CombinedFilter.mk?, h1, h2] at h
        · exact ⟨h1, h2⟩
    · rintro ⟨h1, h2⟩
      simp [CombinedFilter.mk?, h1, h2]

theorem constructor_validation_immediate_witness :
    CustomFieldFilter.mk? none none = .error () ∧
    CombinedFilter.mk? [] "XOR" = .error () :=
  ⟨(constructor_validation_immediate none none [] "XOR").1.mpr ⟨rfl, rfl⟩,
   (constructor_validation_immediate none none [] "XOR").2.mpr
     ⟨by decide, by decide⟩⟩

set_option maxRecDepth 8000 in
/-- C7 counterexample: format_deadline is not total. Its except clause
catches only ValueError, TypeError and OSError, so the OverflowError raised
by int(deadline) / 1000 for integers past the IEEE-double range propagates
uncaught. At 10 ^ 400 the quotient (about 10 ^ 397) exceeds the largest
double (about 1.8e308), so every faithful rendering oracle answers overflow
there - the oracle below does so exactly for magnitudes at or above
10 ^ 312 - and the call raises past the boundary instead of returning a
string. -/
theorem format_deadline_overflow_uncaught :
    format_deadline
      (fun k => if k.natAbs < 10 ^ 312 then .caught else .overflow)
      (.vInt (10 ^ 400)) = .error () := rfl

/-- C7 (amended): format_currency and format_number are total and never
raise past their boundary, and format_deadline returns the raw value's
str() form both when integer coercion fails (caught ValueError/TypeError)
and when the timestamp conversion fails with a caught ValueError/OSError;
but an OverflowError from the timestamp pipeline - which the except clause
omits - propagates past the boundary instead. -/
theorem formatters_fallback_amended (v : Val) (render : Int → RenderOutcome)
    (n : Int) (s : String) :
    (pyTruthy v = true → pyToInt? v = none →
        format_currency v = pyStr v ∧ format_number v = pyStr v ∧
        format_deadline render v = .ok (pyStr v)) ∧
    (pyTruthy v = true → pyToInt? v = some n →
        (render n = .date s → format_deadline render v = .ok s) ∧
        (render n = .caught → format_deadline render v = .ok (pyStr v)) ∧
        (render n = .overflow → format_deadline render v = .error ())) := by
  constructor
  · intro h1 h2
    refine ⟨?_, ?_, ?_⟩
    · simp [format_currency, h1, h2]
    · simp [format_number, h1, h2]
    · cases v with
      | vInt m => simp [pyToInt?] at h2
      | vBool b => simp [pyToInt?] at h2
      | vStr t =>
          have hs : strToInt? t = none := by simpa [pyToInt?] using h2
          simp [format_deadline, h1, hs]
      | vNone => simp [pyTruthy] at h1
      | vList xs => simp [format_deadline, h1]
      | vDict d => simp [format_deadline, h1]
  · intro h1 h2
    have hd : format_deadline render v = handleTs (render n) v := by
      cases v with
      | vInt m =>
          have hm : m = n := by simpa [pyToInt?] using h2
          subst hm
          simp [format_deadline, h1]
      | vBool b =>
          cases b with
          | false => simp [pyTruthy] at h1
          | true =>
              have hm : (1 : Int) = n := by simpa [pyToInt?] using h2
              simp [format_deadline, h1, ← hm]
      | vStr t =>
          have hs : strToInt? t = some n := by simpa [pyToInt?] using h2
          simp [format_deadline, h1, hs]
      | vNone => simp [pyToInt?] at h2
      | vList xs => simp [pyToInt?] at h2
      | vDict d => simp [pyToInt?] at h2
    refine ⟨?_, ?_, ?_⟩
    · intro hr; rw [hd, hr]; rfl
    · intro hr; rw [hd, hr]; rfl
    · intro hr; rw [hd, hr]; rfl

theorem formatters_fallback_amended_witness :
    (format_currency (.vStr "abc") = "abc" ∧
     format_number (.vStr "abc") = "abc" ∧
     format_deadline (fun _ => .caught) (.vStr "abc") = .ok "abc") ∧
    format_deadline (fun _ => .date "17.11.2023") (.vInt 1700000000000) =
      .ok "17.11.2023" ∧
    format_deadline (fun _ => .caught) (.vInt 1700000000000) =
      .ok "1700000000000" ∧
    format_deadline (fun _ => .overflow) (.vInt 1700000000000) = .error () :=
  ⟨(formatters_fallback_amended (.vStr "abc") (fun _ => .caught) 0 "x").1
      (by decide) (by decide),
   ((formatters_fallback_amended (.vInt 1700000000000)
      (fun _ => .date "17.11.2023") 1700000000000 "17.11.2023").2
      rfl rfl).1 rfl,
   ((formatters_fallback_amended (.vInt 1700000000000)
      (fun _ => .caught) 1700000000000 "x").2 rfl rfl).2.1 rfl,
   ((formatters_fallback_amended (.vInt 1700000000000)
      (fun _ => .overflow) 1700000000000 "x").2 rfl rfl).2.2 rfl⟩

/-- C8: format_currency yields the sentinel "N/A" on every falsy input, and
on every truthy integer-coercible input yields the space-grouped digits
followed by the " UZS" suffix; in particular 1234567 formats as
"1 234 567 UZS". -/
theorem format_currency_rules (v : Val) :
    (pyTruthy v = false → format_currency v = "N/A") ∧
    (∀ n : Int, pyTruthy v = true → pyToInt? v = some n →
        format_currency v = spaceGroup n ++ " UZS") ∧
    format_currency (.vInt 1234567) = "1 234 567 UZS" := by
  refine ⟨?_, ?_, by decide⟩
  · intro h
    simp [format_currency, h, DEFAULT_VALUE]
  · intro n h1 h2
    simp [format_currency, h1, h2, CURRENCY_SUFFIX]

theorem format_currency_rules_witness :
    format_currency .vNone = "N/A" ∧
    format_currency (.vInt 1234567) = spaceGroup 1234567 ++ " UZS" :=
  ⟨(format_currency_rules .vNone).1 rfl,
   (format_currency_rules (.vInt 1234567)).2.1 1234567 rfl rfl⟩

/-- C9: in CustomFieldFilter.check, the nested after/before id match
(strategy 3) compares without coercion while the top-level match
(strategy 1) string-coerces both sides: with field_id "5", an integer 5
stored under after.id does not match, while the same integer stored at the
item's top-level field_id key does. -/
theorem nested_id_raw_vs_coerced :
    cfCheck ⟨some "5", none⟩
        ⟨"taskUpdated", "t", some [[("after", .vDict [("id", .vInt 5)])]]⟩ =
      .ok false ∧
    cfCheck ⟨some "5", none⟩
        ⟨"taskUpdated", "t", some [[("field_id", .vInt 5)]]⟩ = .ok true :=
  ⟨rfl, rfl⟩

/-- C10: get_relationship_name substitutes the sentinel "N/A" only when the
"name" key is absent from the mapping (or from the first list element when
that element is a mapping); a present "name" value is returned unchanged,
so [namely for a stored None] the function can return a non-string. -/
theorem relationship_name_passthrough (d : List (String × Val)) (v : Val)
    (rest : List Val) :
    (assocFind d "name" = some v →
        get_relationship_name (.vDict d) = v ∧
        get_relationship_name (.vList (.vDict d :: rest)) = v) ∧
    (assocFind d "name" = none →
        get_relationship_name (.vDict d) = .vStr "N/A" ∧
        get_relationship_name (.vList (.vDict d :: rest)) = .vStr "N/A") ∧
    get_relationship_name (.vList [.vDict [("name", .vNone)]]) = .vNone := by
  refine ⟨?_, ?_, rfl⟩
  · intro h
    have hd : d.isEmpty = false := by
      cases d with
      | nil => simp [assocFind] at h
      | cons a as => simp
    constructor
    · simp [get_relationship_name, pyTruthy, hd, dget, h]
    · simp [get_relationship_name, pyTruthy, dget, h]
  · intro h
    constructor
    · cases hd : d.isEmpty with
      | true => simp [get_relationship_name, pyTruthy, hd, DEFAULT_VALUE]
      | false => simp [get_relationship_name, pyTruthy, hd, dget, h, DEFAULT_VALUE]
    · simp [get_relationship_name, pyTruthy, dget, h, DEFAULT_VALUE]

theorem relationship_name_passthrough_witness :
    get_relationship_name (.vDict [("name", .vNone)]) = .vNone ∧
    get_relationship_name (.vList [.vDict [("name", .vNone)]]) = .vNone :=
  (relationship_name_passthrough [("name", .vNone)] .vNone []).1 rfl
